import Mathlib

/-!
Verification development for the alu-tracker-comments-api service.

The definitions below shallowly embed the routers of the service:
the secret-issuing comments router (`src/unnamed/part_002`, second
variant — the most capable one, which the specification designates as
the intended design), the internal claim-by-email router
(`src/src/routes/api/internal.ts`), and the feedback router with the
public listing (`src/src/routes/api/feedback.ts`, second variant).
The Mongo persistence layer is modelled as an in-memory list of
records; document ids are `Nat`, timestamps are `Nat`.  The SHA-256
hash from `node:crypto` is an external primitive and is passed to the
operations as an explicit function parameter `sha256Hex`.
-/

namespace AluComments

/-- `type` enum of the comments schema: "missing-data" | "correction" | "general". -/
inductive CommentType
  | missingData
  | correction
  | general
deriving DecidableEq, Repr

/-- `status` enum of the comments schema: "visible" | "pending" | "hidden". -/
inductive CommentStatus
  | pending
  | visible
  | hidden
deriving DecidableEq, Repr

/-- A stored comment document, after the fields of `CommentsSchema`
(src/unnamed/part_003) plus the `editKeyHash` digest field that the
secret-issuing router variant writes at creation and reads back with
`.select("+editKeyHash")`.  Optional schema paths are `Option`. -/
structure CommentRec where
  id : Nat
  normalizedKey : String
  brand : Option String := none
  model : Option String := none
  ctype : CommentType
  body : String
  authorName : Option String := none
  authorEmail : Option String := none
  authorId : Option String := none
  editKeyHash : Option String := none
  status : CommentStatus
  createdAt : Nat
  updatedAt : Nat
deriving DecidableEq, Repr

/-- `Comment.findById id`: Mongo `_id` lookup (ids are unique, so the
first hit is the document). -/
def findById (db : List CommentRec) (i : Nat) : Option CommentRec :=
  db.find? (fun c => c.id == i)

/-- `comment.save()` after mutating the document loaded by `findById`:
replace the (unique) document with that id. -/
def updateById (db : List CommentRec) (i : Nat) (f : CommentRec → CommentRec) :
    List CommentRec :=
  match db with
  | [] => []
  | c :: rest => if c.id == i then f c :: rest else c :: updateById rest i f

/-- `Comment.findByIdAndDelete id`: remove the (unique) document with that id. -/
def deleteById (db : List CommentRec) (i : Nat) : List CommentRec :=
  match db with
  | [] => []
  | c :: rest => if c.id == i then rest else c :: deleteById rest i

/-- JS regex `\s` whitespace class (the characters relevant to the body text). -/
def isWsChar (c : Char) : Bool :=
  c == ' ' || c == '\t' || c == '\n' || c == '\r'

/-- `.trim()`: strip leading and trailing whitespace.  (A structural model
of `String.trim`, so that concrete inputs evaluate.) -/
def strTrim (s : String) : String :=
  String.mk (((s.data.dropWhile isWsChar).reverse.dropWhile isWsChar).reverse)

/-- Collapse every run of whitespace to a single space (`.replace(/\s+/g, " ")`). -/
def collapseAux : Bool → List Char → List Char
  | _, [] => []
  | prevWs, c :: rest =>
    if isWsChar c then
      if prevWs then collapseAux true rest
      else ' ' :: collapseAux true rest
    else c :: collapseAux false rest

/-- The zod body transform `(s) => s.replace(/\s+/g, " ").trim()`. -/
def collapseWs (s : String) : String :=
  strTrim (String.mk (collapseAux false s.data))

/-- zod `selfEditSchema.body`: `z.string().min(5).max(2000).transform(collapse)` —
length bounds are checked on the raw string, then the transform runs. -/
def selfEditParse (rawBody : String) : Option String :=
  if rawBody.length < 5 || rawBody.length > 2000 then none
  else some (collapseWs rawBody)

/-- The guest-key ownership check of the self routes:
`!!parsed.data.editKey && !!comment.editKeyHash && sha256Hex(editKey) === comment.editKeyHash`.
JS truthiness makes an absent or empty string falsy on either side. -/
def hasGuestKey (sha256Hex : String → String)
    (editKey : Option String) (storedHash : Option String) : Bool :=
  match editKey, storedHash with
  | some k, some h => k != "" && h != "" && sha256Hex k == h
  | _, _ => false

/-- Outcome of the self-service routes `PATCH /:id/self` and `DELETE /:id/self`. -/
inductive SelfResp
  | validationError
  | notFound
  | forbidden
  | okEdit (id : Nat)
  | okDeleted
deriving DecidableEq, Repr

/-- HTTP status the route attaches to each self-route outcome. -/
def selfRespStatus : SelfResp → Nat
  | SelfResp.validationError => 400
  | SelfResp.notFound => 404
  | SelfResp.forbidden => 403
  | SelfResp.okEdit _ => 200
  | SelfResp.okDeleted => 200

/-- The error payload (`error.code`, `error.message`) of each failing
self-route outcome, with the literal strings of the router. -/
def selfRespError : SelfResp → List (String × String)
  | SelfResp.validationError => [("code", "VALIDATION_ERROR"), ("message", "Invalid input")]
  | SelfResp.notFound => [("code", "NOT_FOUND"), ("message", "Comment not found")]
  | SelfResp.forbidden => [("code", "FORBIDDEN"), ("message", "Not allowed")]
  | SelfResp.okEdit _ => []
  | SelfResp.okDeleted => []

/-- `PATCH /api/comments/:id/self` — parse `{ body, editKey? }`, load the
record, require a matching guest key, then replace `body`; the schema's
`timestamps: true` also refreshes `updatedAt` on `save()` (`now`). -/
def selfEdit (sha256Hex : String → String) (db : List CommentRec)
    (i : Nat) (rawBody : String) (editKey : Option String) (now : Nat) :
    SelfResp × List CommentRec :=
  match selfEditParse rawBody with
  | none => (SelfResp.validationError, db)
  | some newBody =>
    match findById db i with
    | none => (SelfResp.notFound, db)
    | some c =>
      if hasGuestKey sha256Hex editKey c.editKeyHash then
        (SelfResp.okEdit c.id,
         updateById db i (fun r => { r with body := newBody, updatedAt := now }))
      else
        (SelfResp.forbidden, db)

/-- `DELETE /api/comments/:id/self` — `{ editKey? }` always parses; load the
record, require a matching guest key, then delete. -/
def selfDelete (sha256Hex : String → String) (db : List CommentRec)
    (i : Nat) (editKey : Option String) :
    SelfResp × List CommentRec :=
  match findById db i with
  | none => (SelfResp.notFound, db)
  | some c =>
    if hasGuestKey sha256Hex editKey c.editKeyHash then
      (SelfResp.okDeleted, deleteById db i)
    else
      (SelfResp.forbidden, db)

/-- A store is well formed for ownership checking when every stored digest
was minted by the creation flow: the SHA-256 of some non-empty secret
(creation always hashes a 48-hex-character `editKey`). -/
def WellFormedDigests (sha256Hex : String → String) (db : List CommentRec) : Prop :=
  ∀ c ∈ db, ∀ h, c.editKeyHash = some h → ∃ k, k ≠ "" ∧ h = sha256Hex k

/-! ### Creation (`POST /api/comments`, secret-issuing variant) -/

/-- Raw creation payload after JSON body parsing, the fields of
`createCommentSchema` (all still unvalidated strings). -/
structure CreateInput where
  normalizedKey : String
  brand : Option String := none
  model : Option String := none
  ctype : CommentType
  body : String
  authorName : Option String := none
  authorEmail : Option String := none
  hp : Option String := none
deriving DecidableEq, Repr

/-- The same payload after `createCommentSchema.safeParse` succeeded:
trimmed optional strings and the collapsed body. -/
structure ParsedCreate where
  normalizedKey : String
  brand : Option String := none
  model : Option String := none
  ctype : CommentType
  body : String
  authorName : Option String := none
  authorEmail : Option String := none
  hp : Option String := none
deriving DecidableEq, Repr

/-- Length bound check for an optional trimmed string field. -/
def optTrimOk (s : Option String) (maxLen : Nat) : Bool :=
  match s with
  | none => true
  | some v => (strTrim v).length ≤ maxLen

/-- `createCommentSchema.safeParse`: `.trim()` fields are trimmed before the
length bounds; `body` is bounds-checked raw and then collapsed.  E-mail
syntax checking is internal to zod (the spec treats field-format validation
as an external collaborator) and is not re-modelled. -/
def createParse (i : CreateInput) : Option ParsedCreate :=
  if (strTrim i.normalizedKey).length < 1 || (strTrim i.normalizedKey).length > 200 then none
  else if !optTrimOk i.brand 120 then none
  else if !optTrimOk i.model 120 then none
  else if i.body.length < 5 || i.body.length > 2000 then none
  else if !optTrimOk i.authorName 120 then none
  else if !optTrimOk i.authorEmail 254 then none
  else
    some
      { normalizedKey := strTrim i.normalizedKey
        brand := i.brand.map strTrim
        model := i.model.map strTrim
        ctype := i.ctype
        body := collapseWs i.body
        authorName := i.authorName.map strTrim
        authorEmail := i.authorEmail.map strTrim
        hp := i.hp }

/-- The honeypot branch condition `if (hp && hp.trim() !== "")`. -/
def hpTripped (hp : Option String) : Bool :=
  match hp with
  | some h => h != "" && strTrim h != ""
  | none => false

/-- Response of `POST /api/comments`: validation failure, the bare
`{ ok: true }` of the honeypot branch, or the success payload
`{ ok: true, data: { id, status, editKey } }` carrying the raw secret. -/
inductive CreateResp
  | validationError
  | okNoData
  | okCreated (id : Nat) (status : CommentStatus) (editKey : String)
deriving DecidableEq, Repr

/-- Whether a creation response carries a `data` object (the caller-visible
shape distinction between the honeypot branch and genuine success). -/
def createRespHasData : CreateResp → Bool
  | CreateResp.okCreated _ _ _ => true
  | _ => false

/-- `POST /api/comments` (secret-issuing variant): parse, honeypot check,
then store the record with `editKeyHash = sha256Hex editKey` and status per
the `COMMENTS_AUTO_VISIBLE` toggle.  The random `editKey`
(`crypto.randomBytes(24).toString("hex")`), the fresh Mongo id and the
`createdAt` timestamp are environment inputs and are passed in. -/
def createComment (sha256Hex : String → String) (autoVisible : Bool)
    (db : List CommentRec) (newId : Nat) (now : Nat) (editKey : String)
    (i : CreateInput) : CreateResp × List CommentRec :=
  match createParse i with
  | none => (CreateResp.validationError, db)
  | some p =>
    if hpTripped p.hp then
      (CreateResp.okNoData, db)
    else
      let st := if autoVisible then CommentStatus.visible else CommentStatus.pending
      let newDoc : CommentRec :=
        { id := newId
          normalizedKey := p.normalizedKey
          brand := p.brand
          model := p.model
          ctype := p.ctype
          body := p.body
          authorName := p.authorName
          authorEmail := p.authorEmail
          authorId := none
          editKeyHash := some (sha256Hex editKey)
          status := st
          createdAt := now
          updatedAt := now }
      (CreateResp.okCreated newId st editKey, db ++ [newDoc])

/-! ### Serialization of stored comments into responses

Mongoose `.lean()` documents are serialized field-by-field; `authorEmail`
is `select: false` in the schema and appears only where a route opts in
with `.select("+authorEmail")` (the admin listing).  The `editKeyHash`
digest is never part of any route's projection (the self routes select it
for the comparison but respond only with the id), so no serializer emits
it. -/

def commentTypeStr : CommentType → String
  | CommentType.missingData => "missing-data"
  | CommentType.correction => "correction"
  | CommentType.general => "general"

def commentStatusStr : CommentStatus → String
  | CommentStatus.pending => "pending"
  | CommentStatus.visible => "visible"
  | CommentStatus.hidden => "hidden"

/-- One optional schema path: present fields serialize, absent ones vanish. -/
def optField (name : String) (v : Option String) : List (String × String) :=
  match v with
  | some s => [(name, s)]
  | none => []

/-- Serialize a stored comment as a response item.  `includeEmail` is true
exactly for the admin listing's `.select("+authorEmail")`. -/
def serializeCommentFields (includeEmail : Bool) (c : CommentRec) :
    List (String × String) :=
  [("_id", toString c.id), ("normalizedKey", c.normalizedKey)]
    ++ optField "brand" c.brand
    ++ optField "model" c.model
    ++ [("type", commentTypeStr c.ctype), ("body", c.body)]
    ++ optField "authorName" c.authorName
    ++ (if includeEmail then optField "authorEmail" c.authorEmail else [])
    ++ optField "authorId" c.authorId
    ++ [("status", commentStatusStr c.status), ("createdAt", toString c.createdAt),
        ("updatedAt", toString c.updatedAt)]

/-! ### Public listing (`GET /api/comments/:slug`) -/

/-- Mongo sort `{ createdAt: -1 }`: newest first (`a` may precede `b`
when `b` is no newer than `a`). -/
def newestFirst (a b : CommentRec) : Prop :=
  b.createdAt ≤ a.createdAt

instance : DecidableRel newestFirst :=
  fun a b => Nat.decLe b.createdAt a.createdAt

instance : IsTotal CommentRec newestFirst :=
  ⟨fun a b => Nat.le_total b.createdAt a.createdAt⟩

instance : IsTrans CommentRec newestFirst :=
  ⟨fun _ _ _ h1 h2 => Nat.le_trans h2 h1⟩

/-- The database query of the public route:
`find({ normalizedKey: slug, status: "visible" }).sort({ createdAt: -1 }).limit(200)`. -/
def publicQuery (db : List CommentRec) (slug : String) : List CommentRec :=
  ((List.insertionSort newestFirst
      (db.filter (fun c => c.normalizedKey == slug && c.status == CommentStatus.visible))).take
    200)

/-- Response of `GET /api/comments/:slug`. -/
inductive PublicListResp
  | badRequest
  | ok (comments : List (List (String × String)))
deriving DecidableEq, Repr

/-- `GET /api/comments/:slug`: trim the slug, reject an empty one, then
serialize the public query without the e-mail. -/
def listPublic (db : List CommentRec) (slugRaw : String) : PublicListResp :=
  let slug := strTrim slugRaw
  if slug == "" then PublicListResp.badRequest
  else PublicListResp.ok ((publicQuery db slug).map (serializeCommentFields false))

/-! ### Admin guard and moderation routes -/

/-- Outcome of a credential guard. -/
inductive GuardResult
  | notConfigured
  | unauthorized
  | granted
deriving DecidableEq, Repr

/-- `requireAdminKey` of the comments router (also `requireAdmin` of the
feedback router, which is textually identical up to the env-var name):
`ADMIN_KEY = process.env... || ""`, so an unset variable is the empty
string and answers 501 NOT_CONFIGURED; a wrong or missing `x-admin-key`
header answers 401 UNAUTHORIZED. -/
def requireAdminKey (adminKeyCfg : String) (presented : Option String) : GuardResult :=
  if adminKeyCfg == "" then GuardResult.notConfigured
  else if presented != some adminKeyCfg then GuardResult.unauthorized
  else GuardResult.granted

/-- The service-key guard of `POST /api/internal/comments/claim-by-email`:
`if (!SERVICE_KEY || req.header("x-service-key") !== SERVICE_KEY)` answers
401 — an unconfigured (absent or empty) key falls into the same branch as
a wrong one. -/
def serviceGuard (serviceKeyCfg : Option String) (presented : Option String) : GuardResult :=
  match serviceKeyCfg with
  | none => GuardResult.unauthorized
  | some k =>
    if k == "" then GuardResult.unauthorized
    else if presented != some k then GuardResult.unauthorized
    else GuardResult.granted

/-- HTTP status and error payload of each failed guard outcome, with the
literal strings of the routers. -/
def guardError : GuardResult → Option (Nat × String × String)
  | GuardResult.notConfigured => some (501, "NOT_CONFIGURED", "Set COMMENTS_ADMIN_KEY")
  | GuardResult.unauthorized => some (401, "UNAUTHORIZED", "Invalid admin key")
  | GuardResult.granted => none

/-- Clamp of the admin-list limit parameter:
`Math.min(Math.max(parseInt(...) || 200, 1), 500)`. -/
def adminLimitClamp (lim : Nat) : Nat :=
  min (max lim 1) 500

/-- Response of `GET /api/comments/admin/list`. -/
inductive AdminListResp
  | notConfigured
  | unauthorized
  | ok (items : List (List (String × String)))
deriving DecidableEq, Repr

/-- `GET /api/comments/admin/list`: guard, optional status/slug filter,
newest first, clamped limit, `.select("+authorEmail")` so the admin view
includes the e-mail (and nothing re-includes the digest). -/
def adminList (adminKeyCfg : String) (presented : Option String)
    (statusFilter : Option CommentStatus) (slugFilter : Option String)
    (lim : Nat) (db : List CommentRec) : AdminListResp :=
  match requireAdminKey adminKeyCfg presented with
  | GuardResult.notConfigured => AdminListResp.notConfigured
  | GuardResult.unauthorized => AdminListResp.unauthorized
  | GuardResult.granted =>
    let passes := fun (c : CommentRec) =>
      (match statusFilter with
       | some s => c.status == s
       | none => true)
      && (match slugFilter with
          | some s => c.normalizedKey == s
          | none => true)
    AdminListResp.ok
      (((List.insertionSort newestFirst (db.filter passes)).take (adminLimitClamp lim)).map
        (serializeCommentFields true))

/-- Response of the moderation mutations (`PATCH /:id/visible`,
`PATCH /:id/hide`, `DELETE /:id`). -/
inductive ModResp
  | notConfigured
  | unauthorized
  | notFound
  | okComment (fields : List (String × String))
  | okDeleted
deriving DecidableEq, Repr

/-- `PATCH /api/comments/:id/visible` and `/:id/hide`:
`findByIdAndUpdate(id, { status }, { new: true })` — `timestamps: true`
also refreshes `updatedAt`; the returned updated document is serialized
without `authorEmail` (its `select: false` applies) and without the
digest. -/
def setStatus (adminKeyCfg : String) (presented : Option String)
    (db : List CommentRec) (i : Nat) (st : CommentStatus) (now : Nat) :
    ModResp × List CommentRec :=
  match requireAdminKey adminKeyCfg presented with
  | GuardResult.notConfigured => (ModResp.notConfigured, db)
  | GuardResult.unauthorized => (ModResp.unauthorized, db)
  | GuardResult.granted =>
    match findById db i with
    | none => (ModResp.notFound, db)
    | some c =>
      (ModResp.okComment
        (serializeCommentFields false { c with status := st, updatedAt := now }),
       updateById db i (fun r => { r with status := st, updatedAt := now }))

/-- `DELETE /api/comments/:id`: `findByIdAndDelete`. -/
def adminDelete (adminKeyCfg : String) (presented : Option String)
    (db : List CommentRec) (i : Nat) : ModResp × List CommentRec :=
  match requireAdminKey adminKeyCfg presented with
  | GuardResult.notConfigured => (ModResp.notConfigured, db)
  | GuardResult.unauthorized => (ModResp.unauthorized, db)
  | GuardResult.granted =>
    match findById db i with
    | none => (ModResp.notFound, db)
    | some _ => (ModResp.okDeleted, deleteById db i)

/-! ### Identity claim linker (`POST /api/internal/comments/claim-by-email`) -/

/-- The `updateMany` filter `{ authorId: { $exists: false }, authorEmail: email }`. -/
def claimMatch (email : String) (c : CommentRec) : Bool :=
  c.authorId.isNone && c.authorEmail == some email

/-- The `$set: { authorId: userId }` patch; the schema's `timestamps: true`
makes Mongoose add `$set: { updatedAt: now }` to every `updateMany`. -/
def applyClaim (userId : String) (now : Nat) (c : CommentRec) : CommentRec :=
  { c with authorId := some userId, updatedAt := now }

/-- `Comment.updateMany(filter, patch)`: `matchedCount` counts the filter
hits, `modifiedCount` the documents the patch actually changed, and every
hit is patched in place. -/
def updateManyClaim (db : List CommentRec) (userId email : String) (now : Nat) :
    (Nat × Nat) × List CommentRec :=
  let matched := (db.filter (claimMatch email)).length
  let modified :=
    (db.filter (fun c => claimMatch email c && applyClaim userId now c != c)).length
  ((matched, modified),
   db.map (fun c => if claimMatch email c then applyClaim userId now c else c))

/-- Response of the claim-by-email route. -/
inductive ClaimResp
  | unauthorized
  | badRequest
  | ok (matched modified : Nat)
deriving DecidableEq, Repr

/-- `POST /api/internal/comments/claim-by-email`: service-key guard, then
`if (!userId || !email)` → 400, then the bulk update, answering the two
counts. -/
def claimByEmailRoute (serviceKeyCfg : Option String) (presentedKey : Option String)
    (userId email : Option String) (now : Nat) (db : List CommentRec) :
    ClaimResp × List CommentRec :=
  match serviceGuard serviceKeyCfg presentedKey with
  | GuardResult.granted =>
    match userId, email with
    | some u, some e =>
      if u == "" || e == "" then (ClaimResp.badRequest, db)
      else
        let r := updateManyClaim db u e now
        (ClaimResp.ok r.1.1 r.1.2, r.2)
    | _, _ => (ClaimResp.badRequest, db)
  | _ => (ClaimResp.unauthorized, db)

/-! ### Feedback public listing (`GET /api/feedback/public`) -/

/-- `category` enum of the feedback schema. -/
inductive FbCategory
  | bug
  | feature
  | content
  | other
deriving DecidableEq, Repr

/-- `status` enum of the feedback schema: "new" | "triaged" | "closed". -/
inductive FbStatus
  | new
  | triaged
  | closed
deriving DecidableEq, Repr

/-- A stored feedback document, after `FeedbackSchema`
(src/src/models/Feedback.ts). -/
structure FeedbackRec where
  id : Nat
  category : FbCategory
  message : String
  email : Option String := none
  pageUrl : Option String := none
  userAgent : Option String := none
  status : FbStatus
  createdAt : Nat
  updatedAt : Nat
deriving DecidableEq, Repr

def fbCategoryStr : FbCategory → String
  | FbCategory.bug => "bug"
  | FbCategory.feature => "feature"
  | FbCategory.content => "content"
  | FbCategory.other => "other"

def fbStatusStr : FbStatus → String
  | FbStatus.new => "new"
  | FbStatus.triaged => "triaged"
  | FbStatus.closed => "closed"

/-- One token of the `?status=` comma list: only the three enum values
survive the filter. -/
def parseStatusTok (s : String) : Option FbStatus :=
  if s == "new" then some FbStatus.new
  else if s == "triaged" then some FbStatus.triaged
  else if s == "closed" then some FbStatus.closed
  else none

/-- `raw.split(",")` for the single-character separator (a structural model
of `String.splitOn ","`, so that concrete inputs evaluate). -/
def splitCommaAux : List Char → List Char → List String
  | [], acc => [String.mk acc.reverse]
  | c :: rest, acc =>
    if c == ',' then String.mk acc.reverse :: splitCommaAux rest []
    else splitCommaAux rest (c :: acc)

def splitComma (s : String) : List String :=
  splitCommaAux s.data []

/-- `status.split(",").map(trim).filter(valid)`. -/
def parseStatusList (raw : String) : List FbStatus :=
  ((splitComma raw).map strTrim).filterMap parseStatusTok

/-- The mode's base status set:
`mode === "all" ? ["new","triaged","closed"] : ["new","triaged"]`. -/
def modeBase (mode : Option String) : List FbStatus :=
  if mode == some "all" then [FbStatus.new, FbStatus.triaged, FbStatus.closed]
  else [FbStatus.new, FbStatus.triaged]

/-- The status whitelist of the route: the mode's base set, intersected
with a caller-supplied `?status=` list when that list names at least one
valid status (an absent, empty, or all-invalid parameter leaves the base
set — `if (status)` is falsy on the empty string and `asked.length > 0`
guards the intersection). -/
def allowedStatuses (mode : Option String) (statusParam : Option String) :
    List FbStatus :=
  let base := modeBase mode
  match statusParam with
  | none => base
  | some raw =>
    if raw == "" then base
    else
      let asked := parseStatusList raw
      if asked.length > 0 then asked.filter (fun s => base.contains s) else base

/-- The route's limit: default 20 in `recent` mode and 100 otherwise
(an unparsable `?limit=` falls back to the default), clamped to `[1, 200]`. -/
def feedbackPublicLimit (mode : Option String) (limitParam : Option Nat) : Nat :=
  let d := if mode == some "recent" then 20 else 100
  let l :=
    match limitParam with
    | some l => l
    | none => d
  min (max l 1) 200

/-- Mongo sort `{ createdAt: -1 }` on feedback. -/
def fbNewestFirst (a b : FeedbackRec) : Prop :=
  b.createdAt ≤ a.createdAt

instance : DecidableRel fbNewestFirst :=
  fun a b => Nat.decLe b.createdAt a.createdAt

instance : IsTotal FeedbackRec fbNewestFirst :=
  ⟨fun a b => Nat.le_total b.createdAt a.createdAt⟩

instance : IsTrans FeedbackRec fbNewestFirst :=
  ⟨fun _ _ _ h1 h2 => Nat.le_trans h2 h1⟩

/-- The database query of `GET /api/feedback/public`:
`find({ status: { $in: allowed } }).sort({ createdAt: -1 }).limit(lim)`. -/
def feedbackPublicQuery (db : List FeedbackRec)
    (mode statusParam : Option String) (limitParam : Option Nat) :
    List FeedbackRec :=
  let allowed := allowedStatuses mode statusParam
  let lim := feedbackPublicLimit mode limitParam
  ((List.insertionSort fbNewestFirst (db.filter (fun f => allowed.contains f.status))).take lim)

/-- `.select("category message pageUrl status createdAt")`: the public
projection — no e-mail, no user agent; a Mongo inclusion projection
retains `_id` unless it is explicitly excluded, so `_id` is serialized
too. -/
def serializeFeedbackPublic (f : FeedbackRec) : List (String × String) :=
  [("_id", toString f.id), ("category", fbCategoryStr f.category), ("message", f.message)]
    ++ optField "pageUrl" f.pageUrl
    ++ [("status", fbStatusStr f.status), ("createdAt", toString f.createdAt)]

/-- `GET /api/feedback/public`: the query serialized with the public-safe
projection. -/
def feedbackPublicRoute (db : List FeedbackRec)
    (mode statusParam : Option String) (limitParam : Option Nat) :
    List (List (String × String)) :=
  (feedbackPublicQuery db mode statusParam limitParam).map serializeFeedbackPublic

/-! ## Helper facts and witnesses -/

/-- The presented secret's digest equals the digest stored on the record. -/
def DigestMatches (sha256Hex : String → String)
    (editKey : Option String) (storedHash : Option String) : Prop :=
  ∃ k h, editKey = some k ∧ storedHash = some h ∧ sha256Hex k = h

/-- For digests minted by the creation flow (hash of a non-empty secret,
such as a collision-resistant hash of the 48-hex-character `editKey`),
the router's truthiness-guarded comparison agrees with plain digest
equality. -/
theorem hasGuestKey_iff_digestMatches (sha256Hex : String → String)
    (hinj : ∀ a b, sha256Hex a = sha256Hex b → a = b)
    (hne : ∀ s, sha256Hex s ≠ "")
    (ek storedHash : Option String)
    (hwf : ∀ h, storedHash = some h → ∃ k0, k0 ≠ "" ∧ h = sha256Hex k0) :
    hasGuestKey sha256Hex ek storedHash = true ↔
      DigestMatches sha256Hex ek storedHash := by
  unfold DigestMatches
  constructor
  · intro hg
    match ek, storedHash with
    | some k, some h =>
      simp only [hasGuestKey, Bool.and_eq_true, bne_iff_ne, ne_eq, beq_iff_eq] at hg
      exact ⟨k, h, rfl, rfl, hg.2⟩
    | none, none => simp [hasGuestKey] at hg
    | none, some _ => simp [hasGuestKey] at hg
    | some _, none => simp [hasGuestKey] at hg
  · rintro ⟨k, h, hek, hst, hkh⟩
    subst hek
    subst hst
    obtain ⟨k0, hk0ne, hk0⟩ := hwf h rfl
    have hkk0 : k = k0 := hinj _ _ (by rw [hkh, hk0])
    simp only [hasGuestKey, Bool.and_eq_true, bne_iff_ne, ne_eq, beq_iff_eq]
    refine ⟨⟨?_, ?_⟩, hkh⟩
    · rw [hkk0]; exact hk0ne
    · rw [← hkh]; exact hne k

/-- A record found by id is in the store. -/
theorem findById_mem {db : List CommentRec} {i : Nat} {c : CommentRec}
    (hc : findById db i = some c) : c ∈ db :=
  List.mem_of_find?_eq_some hc

/-- Concrete stand-in hash for witnesses: prefix a marker character, so it
is injective and never produces the empty string. -/
def tagHash (s : String) : String :=
  String.mk ('#' :: s.data)

theorem tagHash_inj : ∀ a b : String, tagHash a = tagHash b → a = b := by
  intro a b h
  have h2 : ('#' :: a.data) = ('#' :: b.data) := congrArg String.data h
  exact String.ext (List.cons_injective h2)

theorem tagHash_ne_empty : ∀ s : String, tagHash s ≠ "" := by
  intro s h
  have h2 := congrArg String.data h
  simp [tagHash] at h2

/-- Concrete record used by the witnesses: a pending comment whose stored
digest was minted from the secret `"k1"`. -/
def witComment : CommentRec :=
  { id := 1
    normalizedKey := "acme-widget-9000"
    ctype := CommentType.correction
    body := "Listed weight is wrong"
    editKeyHash := some (tagHash "k1")
    status := CommentStatus.pending
    createdAt := 10
    updatedAt := 10 }

/-! ## Claim theorems -/

/-- C1: for every `SelfEdit(id, newBody, presentedSecret)` and
`SelfDelete(id, presentedSecret)` call where a record with `id` exists
(and, for `SelfEdit`, the new body passes validation), the operation
succeeds if and only if the digest of the presented secret equals the
digest stored on the record; for any other secret, or no secret, it
yields Forbidden.  The hash hypotheses state that SHA-256 is
collision-free on the secrets in play and never yields the empty hex
string; the store hypothesis states that every stored digest was minted
from a non-empty secret, as creation always does. -/
theorem selfOps_succeed_iff_digest_matches
    (sha256Hex : String → String)
    (hinj : ∀ a b, sha256Hex a = sha256Hex b → a = b)
    (hne : ∀ s, sha256Hex s ≠ "")
    (db : List CommentRec) (hwf : WellFormedDigests sha256Hex db)
    (i : Nat) (c : CommentRec) (hc : findById db i = some c)
    (rawBody : String) (hb : selfEditParse rawBody ≠ none)
    (ek : Option String) (now : Nat) :
    ((selfEdit sha256Hex db i rawBody ek now).1 = SelfResp.okEdit c.id ↔
      DigestMatches sha256Hex ek c.editKeyHash)
    ∧ ((selfDelete sha256Hex db i ek).1 = SelfResp.okDeleted ↔
      DigestMatches sha256Hex ek c.editKeyHash)
    ∧ (¬ DigestMatches sha256Hex ek c.editKeyHash →
        (selfEdit sha256Hex db i rawBody ek now).1 = SelfResp.forbidden
        ∧ (selfDelete sha256Hex db i ek).1 = SelfResp.forbidden) := by
  have hmem : c ∈ db := findById_mem hc
  have hiff := hasGuestKey_iff_digestMatches sha256Hex hinj hne ek c.editKeyHash
    (fun h hh => hwf c hmem h hh)
  obtain ⟨nb, hnb⟩ : ∃ nb, selfEditParse rawBody = some nb := by
    cases hpb : selfEditParse rawBody
    · exact absurd hpb hb
    · exact ⟨_, rfl⟩
  by_cases hg : hasGuestKey sha256Hex ek c.editKeyHash = true
  · have hd := hiff.mp hg
    refine ⟨?_, ?_, fun hnd => absurd hd hnd⟩
    · simp [selfEdit, hnb, hc, hg, hd]
    · simp [selfDelete, hc, hg, hd]
  · have hd : ¬ DigestMatches sha256Hex ek c.editKeyHash :=
      fun hdm => hg (hiff.mpr hdm)
    have hgf : hasGuestKey sha256Hex ek c.editKeyHash = false :=
      Bool.eq_false_iff.mpr hg
    refine ⟨?_, ?_, fun _ => ⟨?_, ?_⟩⟩ <;>
      simp [selfEdit, selfDelete, hnb, hc, hgf, hd]

/-- Witness for C1: with the correct secret the edit succeeds, with a
wrong secret the delete is Forbidden. -/
theorem selfOps_succeed_iff_digest_matches_witness :
    (selfEdit tagHash [witComment] 1 "The corrected body text" (some "k1") 99).1 =
      SelfResp.okEdit 1
    ∧ (selfDelete tagHash [witComment] 1 (some "wrong")).1 = SelfResp.forbidden := by
  have hwf : WellFormedDigests tagHash [witComment] := by
    intro c hcm h hh
    rcases List.mem_singleton.mp hcm with rfl
    refine ⟨"k1", by decide, ?_⟩
    injection hh with hh2
    rw [← hh2]
  constructor
  · exact (selfOps_succeed_iff_digest_matches tagHash tagHash_inj tagHash_ne_empty
      [witComment] hwf 1 witComment rfl "The corrected body text" (by decide)
      (some "k1") 99).1.mpr ⟨"k1", tagHash "k1", rfl, rfl, rfl⟩
  · refine ((selfOps_succeed_iff_digest_matches tagHash tagHash_inj tagHash_ne_empty
      [witComment] hwf 1 witComment rfl "The corrected body text" (by decide)
      (some "wrong") 99).2.2 ?_).2
    rintro ⟨k, h, hk, hh, heq⟩
    injection hk with hk2
    injection hh with hh2
    rw [← hk2, ← hh2] at heq
    exact absurd heq (by decide)

/-- C10: every `SelfEdit` or `SelfDelete` call that results in NotFound or
Forbidden (or a validation failure) leaves the store exactly as it was:
the ownership verification precedes any write, so the error branches
perform no mutation. -/
theorem selfOps_error_branches_preserve_store
    (sha256Hex : String → String) (db : List CommentRec) (i : Nat)
    (rawBody : String) (ek : Option String) (now : Nat) :
    ((selfEdit sha256Hex db i rawBody ek now).1 = SelfResp.validationError ∨
      (selfEdit sha256Hex db i rawBody ek now).1 = SelfResp.notFound ∨
      (selfEdit sha256Hex db i rawBody ek now).1 = SelfResp.forbidden →
        (selfEdit sha256Hex db i rawBody ek now).2 = db)
    ∧ ((selfDelete sha256Hex db i ek).1 = SelfResp.notFound ∨
      (selfDelete sha256Hex db i ek).1 = SelfResp.forbidden →
        (selfDelete sha256Hex db i ek).2 = db) := by
  constructor
  · intro hr
    cases hpb : selfEditParse rawBody with
    | none => simp [selfEdit, hpb]
    | some nb =>
      cases hf : findById db i with
      | none => simp [selfEdit, hpb, hf]
      | some c =>
        by_cases hg : hasGuestKey sha256Hex ek c.editKeyHash = true
        · exfalso
          rcases hr with h | h | h <;> simp [selfEdit, hpb, hf, hg] at h
        · simp [selfEdit, hpb, hf, Bool.eq_false_iff.mpr hg]
  · intro hr
    cases hf : findById db i with
    | none => simp [selfDelete, hf]
    | some c =>
      by_cases hg : hasGuestKey sha256Hex ek c.editKeyHash = true
      · exfalso
        rcases hr with h | h <;> simp [selfDelete, hf, hg] at h
      · simp [selfDelete, hf, Bool.eq_false_iff.mpr hg]

/-- Witness for C10: the Forbidden delete leaves the singleton store intact. -/
theorem selfOps_error_branches_preserve_store_witness :
    (selfDelete tagHash [witComment] 1 (some "wrong")).2 = [witComment] :=
  (selfOps_error_branches_preserve_store tagHash [witComment] 1
    "The corrected body text" (some "wrong") 99).2 (Or.inr (by decide))

/-- C8 counterexample: the self routes distinguish a nonexistent record id
from a wrong secret — the wrong secret on the existing record with id 1
answers Forbidden (403), while id 2, which does not exist, answers
NotFound (404) with a different payload. -/
theorem selfResp_distinguishes_notFound_from_forbidden :
    (selfDelete tagHash [witComment] 1 (some "wrong")).1 = SelfResp.forbidden
    ∧ (selfDelete tagHash [witComment] 2 (some "wrong")).1 = SelfResp.notFound
    ∧ selfRespStatus SelfResp.forbidden = 403
    ∧ selfRespStatus SelfResp.notFound = 404
    ∧ selfRespError SelfResp.forbidden ≠ selfRespError SelfResp.notFound := by
  decide

/-- C8 (amended): Unauthorized/Forbidden results carry no detail beyond
the category — a Forbidden self-route response is the constant
403/"FORBIDDEN"/"Not allowed" payload whatever made the ownership proof
fail, and a NotFound response is the constant 404 payload — but SelfEdit
and SelfDelete do distinguish a nonexistent record id (NotFound) from a
wrong secret (Forbidden). -/
theorem selfResp_errors_carry_no_detail
    (sha256Hex : String → String) (db : List CommentRec) (i : Nat)
    (rawBody : String) (ek : Option String) (now : Nat) :
    ((selfEdit sha256Hex db i rawBody ek now).1 = SelfResp.forbidden →
      selfRespStatus (selfEdit sha256Hex db i rawBody ek now).1 = 403
      ∧ selfRespError (selfEdit sha256Hex db i rawBody ek now).1 =
          [("code", "FORBIDDEN"), ("message", "Not allowed")])
    ∧ ((selfDelete sha256Hex db i ek).1 = SelfResp.forbidden →
      selfRespStatus (selfDelete sha256Hex db i ek).1 = 403
      ∧ selfRespError (selfDelete sha256Hex db i ek).1 =
          [("code", "FORBIDDEN"), ("message", "Not allowed")])
    ∧ ((selfEdit sha256Hex db i rawBody ek now).1 = SelfResp.notFound →
      selfRespStatus (selfEdit sha256Hex db i rawBody ek now).1 = 404
      ∧ selfRespError (selfEdit sha256Hex db i rawBody ek now).1 =
          [("code", "NOT_FOUND"), ("message", "Comment not found")])
    ∧ ((selfDelete sha256Hex db i ek).1 = SelfResp.notFound →
      selfRespStatus (selfDelete sha256Hex db i ek).1 = 404
      ∧ selfRespError (selfDelete sha256Hex db i ek).1 =
          [("code", "NOT_FOUND"), ("message", "Comment not found")]) := by
  refine ⟨fun h => ?_, fun h => ?_, fun h => ?_, fun h => ?_⟩ <;>
    rw [h] <;> exact ⟨rfl, rfl⟩

/-- Witness for C8's amended theorem: the concrete Forbidden delete
carries the constant payload. -/
theorem selfResp_errors_carry_no_detail_witness :
    selfRespError (selfDelete tagHash [witComment] 1 (some "wrong")).1 =
      [("code", "FORBIDDEN"), ("message", "Not allowed")] :=
  ((selfResp_errors_carry_no_detail tagHash [witComment] 1
    "The corrected body text" (some "wrong") 99).2.1 (by decide)).2

/-- No serialized comment view — public or admin — carries the stored
digest (`editKeyHash`) or a raw secret field (`editKey`). -/
theorem serialize_no_secret_keys (b : Bool) (c : CommentRec) :
    "editKeyHash" ∉ (serializeCommentFields b c).map Prod.fst
    ∧ "editKey" ∉ (serializeCommentFields b c).map Prod.fst := by
  rcases c with ⟨ci, cn, cb, cm, ct, cbody, can, cae, cai, cek, cst, cca, cua⟩
  constructor <;>
  · cases cb <;> cases cm <;> cases can <;> cases cae <;> cases cai <;> cases b <;>
      simp [serializeCommentFields, optField]

/-- The public serialization (no `.select("+authorEmail")`) never carries
the author's e-mail. -/
theorem serialize_public_no_email (c : CommentRec) :
    "authorEmail" ∉ (serializeCommentFields false c).map Prod.fst := by
  rcases c with ⟨ci, cn, cb, cm, ct, cbody, can, cae, cai, cek, cst, cca, cua⟩
  cases cb <;> cases cm <;> cases can <;> cases cae <;> cases cai <;>
    simp [serializeCommentFields, optField]

/-- C2: for every created comment the raw ownership secret appears in the
creation response, and neither the secret nor the stored digest is
serialized by any other operation: the public listing, the admin listing
and the moderation responses all emit items without an `editKey` or
`editKeyHash` field (and the public views without `authorEmail`). -/
theorem secret_disclosed_only_at_creation
    (sha256Hex : String → String) (auto : Bool) (db : List CommentRec)
    (newId now : Nat) (editKey : String) (i : CreateInput) (p : ParsedCreate)
    (hp : createParse i = some p) (hh : hpTripped p.hp = false) :
    (createComment sha256Hex auto db newId now editKey i).1 =
      CreateResp.okCreated newId
        (if auto then CommentStatus.visible else CommentStatus.pending) editKey
    ∧ (∀ db2 slug items, listPublic db2 slug = PublicListResp.ok items →
        ∀ it ∈ items, "editKeyHash" ∉ it.map Prod.fst ∧ "editKey" ∉ it.map Prod.fst
          ∧ "authorEmail" ∉ it.map Prod.fst)
    ∧ (∀ cfg pk sf slf lim db2 items,
        adminList cfg pk sf slf lim db2 = AdminListResp.ok items →
        ∀ it ∈ items, "editKeyHash" ∉ it.map Prod.fst ∧ "editKey" ∉ it.map Prod.fst)
    ∧ (∀ cfg pk db2 j st now2 fields,
        (setStatus cfg pk db2 j st now2).1 = ModResp.okComment fields →
        "editKeyHash" ∉ fields.map Prod.fst ∧ "editKey" ∉ fields.map Prod.fst
          ∧ "authorEmail" ∉ fields.map Prod.fst) := by
  refine ⟨by simp [createComment, hp, hh], ?_, ?_, ?_⟩
  · intro db2 slug items hok it hit
    by_cases hs : (strTrim slug == "") = true
    · simp [listPublic, hs] at hok
    · simp only [listPublic, hs, if_false, Bool.false_eq_true, ite_false,
        PublicListResp.ok.injEq] at hok
      rw [← hok] at hit
      obtain ⟨c, _, rfl⟩ := List.mem_map.mp hit
      exact ⟨(serialize_no_secret_keys false c).1, (serialize_no_secret_keys false c).2,
        serialize_public_no_email c⟩
  · intro cfg pk sf slf lim db2 items hok it hit
    cases hgr : requireAdminKey cfg pk <;> simp [adminList, hgr] at hok
    rw [← hok] at hit
    obtain ⟨c, _, rfl⟩ := List.mem_map.mp (List.mem_of_mem_take hit)
    exact serialize_no_secret_keys true c
  · intro cfg pk db2 j st now2 fields hok
    cases hgr : requireAdminKey cfg pk <;> simp [setStatus, hgr] at hok
    cases hf : findById db2 j <;> rw [hf] at hok <;> simp at hok
    rw [← hok]
    exact ⟨(serialize_no_secret_keys false _).1, (serialize_no_secret_keys false _).2,
      serialize_public_no_email _⟩

/-- Concrete creation payload used by the witnesses. -/
def witCreateInput : CreateInput :=
  { normalizedKey := "acme-widget-9000"
    ctype := CommentType.correction
    body := "Listed weight is wrong"
    hp := none }

/-- Witness for C2: the creation response carries the raw secret. -/
theorem secret_disclosed_only_at_creation_witness :
    (createComment tagHash false [] 7 99 "secret-token" witCreateInput).1 =
      CreateResp.okCreated 7 CommentStatus.pending "secret-token" := by
  have h := secret_disclosed_only_at_creation tagHash false [] 7 99 "secret-token"
    witCreateInput
    { normalizedKey := "acme-widget-9000"
      ctype := CommentType.correction
      body := "Listed weight is wrong"
      hp := none }
    (by decide) (by decide)
  simpa using h.1

/-- C3 counterexample: a decoy-field submission does not return a response
identical in shape to a successful creation — the honeypot branch answers
the bare `{ ok: true }` with no data object, while genuine creation
answers with `data: { id, status, editKey }`; no record is persisted in
the honeypot case. -/
theorem honeypot_response_shape_differs :
    (createComment tagHash false [] 7 99 "secret-token"
        { witCreateInput with hp := some "bot" }).1 = CreateResp.okNoData
    ∧ (createComment tagHash false [] 7 99 "secret-token" witCreateInput).1 =
        CreateResp.okCreated 7 CommentStatus.pending "secret-token"
    ∧ createRespHasData CreateResp.okNoData = false
    ∧ createRespHasData (CreateResp.okCreated 7 CommentStatus.pending "secret-token") = true
    ∧ (createComment tagHash false [] 7 99 "secret-token"
        { witCreateInput with hp := some "bot" }).2 = [] := by
  decide

/-- C3 (amended): a decoy-field submission returns the bare `{ ok: true }`
success response with no data object and persists no record; it is not
identical in shape to genuine creation, whose response additionally
carries `data: { id, status, editKey }`. -/
theorem honeypot_returns_bare_ok_and_persists_nothing
    (sha256Hex : String → String) (auto : Bool) (db : List CommentRec)
    (newId now : Nat) (editKey : String) (i : CreateInput) (p : ParsedCreate)
    (hp : createParse i = some p) (hh : hpTripped p.hp = true) :
    (createComment sha256Hex auto db newId now editKey i).1 = CreateResp.okNoData
    ∧ (createComment sha256Hex auto db newId now editKey i).2 = db
    ∧ createRespHasData (createComment sha256Hex auto db newId now editKey i).1 = false := by
  simp [createComment, hp, hh, createRespHasData]

/-- Witness for C3's amended theorem. -/
theorem honeypot_returns_bare_ok_and_persists_nothing_witness :
    (createComment tagHash false [] 7 99 "secret-token"
      { witCreateInput with hp := some "bot" }).2 = [] :=
  (honeypot_returns_bare_ok_and_persists_nothing tagHash false [] 7 99 "secret-token"
    { witCreateInput with hp := some "bot" }
    { normalizedKey := "acme-widget-9000"
      ctype := CommentType.correction
      body := "Listed weight is wrong"
      hp := some "bot" }
    (by decide) (by decide)).2.1

/-- After the bulk claim update, no record matches the claim filter any
more: every former match now has `authorId` set. -/
theorem claimMatch_after_update (db : List CommentRec) (u e : String) (now : Nat) :
    ∀ c ∈ (updateManyClaim db u e now).2, claimMatch e c = false := by
  intro c hc
  simp only [updateManyClaim] at hc
  obtain ⟨a, _, rfl⟩ := List.mem_map.mp hc
  by_cases h : claimMatch e a = true
  · rw [if_pos h]
    simp [claimMatch, applyClaim]
  · rw [if_neg h]
    exact Bool.eq_false_iff.mpr h

/-- A bulk claim update over a store with no matching record counts zero
matches and leaves every record in place. -/
theorem updateManyClaim_nomatch (l : List CommentRec) (u e : String) (now : Nat)
    (hne : ∀ c ∈ l, claimMatch e c = false) :
    updateManyClaim l u e now = ((0, 0), l) := by
  have hf1 : l.filter (claimMatch e) = [] :=
    List.filter_eq_nil_iff.mpr (fun a ha => by simp [hne a ha])
  have hf2 : l.filter (fun c => claimMatch e c && applyClaim u now c != c) = [] :=
    List.filter_eq_nil_iff.mpr (fun a ha => by simp [hne a ha])
  have hmapeq : ∀ a ∈ l, (if claimMatch e a then applyClaim u now a else a) = id a :=
    fun a ha => by simp [hne a ha]
  unfold updateManyClaim
  rw [hf1, hf2, List.map_congr_left hmapeq, List.map_id]
  rfl

/-- C5: ClaimByEmail is idempotent — with the service key granted and
non-empty arguments, running the route a second time with identical
arguments matches zero records, modifies zero records, reports success
(no error), and leaves the store exactly as the first run left it. -/
theorem claimByEmail_idempotent
    (cfg pk : Option String) (u e : String) (db : List CommentRec) (now1 now2 : Nat)
    (hg : serviceGuard cfg pk = GuardResult.granted) (hu : u ≠ "") (he : e ≠ "") :
    (claimByEmailRoute cfg pk (some u) (some e) now2
        (claimByEmailRoute cfg pk (some u) (some e) now1 db).2).1 = ClaimResp.ok 0 0
    ∧ (claimByEmailRoute cfg pk (some u) (some e) now2
        (claimByEmailRoute cfg pk (some u) (some e) now1 db).2).2 =
      (claimByEmailRoute cfg pk (some u) (some e) now1 db).2 := by
  have hcond : (u == "" || e == "") = false := by simp [hu, he]
  have hroute : (claimByEmailRoute cfg pk (some u) (some e) now1 db).2 =
      (updateManyClaim db u e now1).2 := by
    simp [claimByEmailRoute, hg, hcond]
  have hsecond : updateManyClaim (updateManyClaim db u e now1).2 u e now2 =
      ((0, 0), (updateManyClaim db u e now1).2) :=
    updateManyClaim_nomatch (updateManyClaim db u e now1).2 u e now2
      (claimMatch_after_update db u e now1)
  constructor
  · rw [hroute]
    simp [claimByEmailRoute, hg, hcond, hsecond]
  · rw [hroute]
    simp [claimByEmailRoute, hg, hcond, hsecond]

/-- Concrete anonymous comment with a stored e-mail, for the claim-linker
witnesses. -/
def witEmailComment : CommentRec :=
  { witComment with id := 2, authorEmail := some "ann@example.com" }

/-- Witness for C5: the second identical run reports `matched 0`. -/
theorem claimByEmail_idempotent_witness :
    (claimByEmailRoute (some "svc") (some "svc") (some "u1") (some "ann@example.com") 100
      (claimByEmailRoute (some "svc") (some "svc") (some "u1") (some "ann@example.com") 99
        [witEmailComment]).2).1 = ClaimResp.ok 0 0 :=
  (claimByEmail_idempotent (some "svc") (some "svc") "u1" "ann@example.com"
    [witEmailComment] 99 100 (by decide) (by decide) (by decide)).1

/-- C6 counterexample: the schema's `timestamps: true` makes Mongoose add
`$set: { updatedAt: now }` to the bulk claim update, so "only `authorId`
is set; all other fields unchanged" fails — the matched record also has
`updatedAt` refreshed (here 10 → 777). -/
theorem claimByEmail_also_sets_updatedAt :
    ((updateManyClaim [witEmailComment] "u1" "ann@example.com" 777).2)[0]? =
      some { witEmailComment with authorId := some "u1", updatedAt := 777 }
    ∧ ((updateManyClaim [witEmailComment] "u1" "ann@example.com" 777).2)[0]? ≠
      some { witEmailComment with authorId := some "u1" }
    ∧ witEmailComment.updatedAt = 10 := by
  decide

/-- C6 (amended): the bulk claim update touches exactly the matched
records (`authorId` absent, `authorEmail` equal to the given e-mail as
stored) and sets `authorId` — and, through the schema's
`timestamps: true`, refreshes `updatedAt` — on them; every other field,
in particular `status` and the stored digest, is unchanged; unmatched
records are unchanged entirely; the reported counts are the number of
matches, and the modified count equals the matched count. -/
theorem claimByEmail_frame (u e : String) (now : Nat) (db : List CommentRec) :
    ((updateManyClaim db u e now).2).length = db.length
    ∧ (∀ (i : Nat) (c : CommentRec), db[i]? = some c →
        (claimMatch e c = true →
          ((updateManyClaim db u e now).2)[i]? = some (applyClaim u now c)
          ∧ (applyClaim u now c).authorId = some u
          ∧ (applyClaim u now c).updatedAt = now
          ∧ (applyClaim u now c).status = c.status
          ∧ (applyClaim u now c).editKeyHash = c.editKeyHash
          ∧ (applyClaim u now c).body = c.body
          ∧ (applyClaim u now c).normalizedKey = c.normalizedKey
          ∧ (applyClaim u now c).authorEmail = c.authorEmail
          ∧ (applyClaim u now c).createdAt = c.createdAt)
        ∧ (claimMatch e c = false → ((updateManyClaim db u e now).2)[i]? = some c))
    ∧ (updateManyClaim db u e now).1.1 = (db.filter (claimMatch e)).length
    ∧ (updateManyClaim db u e now).1.2 = (db.filter (claimMatch e)).length := by
  refine ⟨by simp [updateManyClaim], ?_, rfl, ?_⟩
  · intro i c hic
    have hmap : ((updateManyClaim db u e now).2)[i]? =
        (db[i]?).map (fun c => if claimMatch e c then applyClaim u now c else c) := by
      simp [updateManyClaim]
    constructor
    · intro hm
      refine ⟨?_, rfl, rfl, rfl, rfl, rfl, rfl, rfl, rfl⟩
      rw [hmap, hic]
      simp [hm]
    · intro hm
      rw [hmap, hic]
      simp [hm]
  · simp only [updateManyClaim]
    congr 1
    apply List.filter_congr
    intro a _
    by_cases h : claimMatch e a = true
    · have hnone : a.authorId = none := by
        have h2 := h
        simp only [claimMatch, Bool.and_eq_true, Option.isNone_iff_eq_none] at h2
        exact h2.1
      have hneq : applyClaim u now a ≠ a := by
        intro heq
        have h3 := congrArg CommentRec.authorId heq
        rw [hnone] at h3
        simp [applyClaim] at h3
      simp [h, bne_iff_ne.mpr hneq]
    · simp [Bool.eq_false_iff.mpr h]

/-- Witness for C6's amended theorem: the matched singleton record gets
`authorId` set and `updatedAt` refreshed, nothing else. -/
theorem claimByEmail_frame_witness :
    ((updateManyClaim [witEmailComment] "u1" "ann@example.com" 777).2)[0]? =
      some (applyClaim "u1" 777 witEmailComment) :=
  (((claimByEmail_frame "u1" "ann@example.com" 777 [witEmailComment]).2.1 0
    witEmailComment rfl).1 (by decide)).1

/-- C7 counterexample: with no configured service key, the ClaimByEmail
operation reports a plain Unauthorized denial, not the distinct
"not configured" condition the claim requires of every
credential-guarded operation. -/
theorem serviceKey_unconfigured_is_plain_unauthorized :
    serviceGuard none (some "any-key") = GuardResult.unauthorized
    ∧ serviceGuard (some "") (some "any-key") = GuardResult.unauthorized
    ∧ (claimByEmailRoute none (some "any-key") (some "u1") (some "ann@example.com") 99 []).1 =
        ClaimResp.unauthorized
    ∧ GuardResult.unauthorized ≠ GuardResult.notConfigured := by
  decide

/-- C7 (amended): the moderator guard (comments router `requireAdminKey`;
the feedback router's `requireAdmin` is textually identical up to the
env-var name) reports the distinct NOT_CONFIGURED condition when its key
has no configured value and never grants — every moderator operation then
answers NotConfigured without touching the store; but the service-key
guard of ClaimByEmail reports a plain UNAUTHORIZED when its key is
unconfigured (absent or empty) — it also never grants. -/
theorem unconfigured_credentials_never_grant
    (p : Option String) (sf : Option CommentStatus) (slf : Option String)
    (lim : Nat) (db : List CommentRec) (i : Nat) (st : CommentStatus) (now : Nat)
    (userId email : Option String) (cfg : Option String)
    (hcfg : cfg = none ∨ cfg = some "") :
    requireAdminKey "" p = GuardResult.notConfigured
    ∧ adminList "" p sf slf lim db = AdminListResp.notConfigured
    ∧ (setStatus "" p db i st now).1 = ModResp.notConfigured
    ∧ (setStatus "" p db i st now).2 = db
    ∧ (adminDelete "" p db i).1 = ModResp.notConfigured
    ∧ (adminDelete "" p db i).2 = db
    ∧ serviceGuard cfg p = GuardResult.unauthorized
    ∧ serviceGuard cfg p ≠ GuardResult.granted
    ∧ (claimByEmailRoute cfg p userId email now db).1 = ClaimResp.unauthorized
    ∧ (claimByEmailRoute cfg p userId email now db).2 = db := by
  have hs : serviceGuard cfg p = GuardResult.unauthorized := by
    rcases hcfg with rfl | rfl <;> simp [serviceGuard]
  refine ⟨by simp [requireAdminKey], by simp [adminList, requireAdminKey],
    by simp [setStatus, requireAdminKey], by simp [setStatus, requireAdminKey],
    by simp [adminDelete, requireAdminKey], by simp [adminDelete, requireAdminKey],
    hs, by simp [hs], by simp [claimByEmailRoute, hs], by simp [claimByEmailRoute, hs]⟩

/-- Witness for C7's amended theorem at a concrete unconfigured state. -/
theorem unconfigured_credentials_never_grant_witness :
    adminList "" (some "whatever") none none 200 [witComment] =
      AdminListResp.notConfigured
    ∧ serviceGuard none (some "whatever") = GuardResult.unauthorized :=
  ⟨(unconfigured_credentials_never_grant (some "whatever") none none 200 [witComment]
      0 CommentStatus.visible 99 none none none (Or.inl rfl)).2.1,
   (unconfigured_credentials_never_grant (some "whatever") none none 200 [witComment]
      0 CommentStatus.visible 99 none none none (Or.inl rfl)).2.2.2.2.2.2.1⟩

/-- C4: for every store, `ListPublic(slug)` (with a non-empty trimmed
slug) returns exactly the comments whose `normalizedKey` matches and
whose `status` is `visible` — all of them when at most 200 match — in
newest-first order, capped at 200, each serialized without `authorEmail`
and without the ownership digest. -/
theorem listPublic_spec (db : List CommentRec) (slugRaw : String)
    (hs : strTrim slugRaw ≠ "") :
    (∀ c ∈ publicQuery db (strTrim slugRaw),
        c.normalizedKey = strTrim slugRaw ∧ c.status = CommentStatus.visible)
    ∧ (publicQuery db (strTrim slugRaw)).length ≤ 200
    ∧ (publicQuery db (strTrim slugRaw)).Pairwise
        (fun a b => b.createdAt ≤ a.createdAt)
    ∧ ((db.filter (fun c => c.normalizedKey == strTrim slugRaw
          && c.status == CommentStatus.visible)).length ≤ 200 →
        ∀ c, c ∈ publicQuery db (strTrim slugRaw) ↔
          c ∈ db ∧ c.normalizedKey = strTrim slugRaw ∧ c.status = CommentStatus.visible)
    ∧ listPublic db slugRaw =
        PublicListResp.ok
          ((publicQuery db (strTrim slugRaw)).map (serializeCommentFields false))
    ∧ (∀ c, "authorEmail" ∉ (serializeCommentFields false c).map Prod.fst
        ∧ "editKeyHash" ∉ (serializeCommentFields false c).map Prod.fst) := by
  have hmem : ∀ c ∈ publicQuery db (strTrim slugRaw),
      c ∈ db ∧ c.normalizedKey = strTrim slugRaw ∧ c.status = CommentStatus.visible := by
    intro c hc
    have h1 := List.mem_of_mem_take hc
    have h2 := (List.mem_insertionSort newestFirst).mp h1
    have h3 := List.mem_filter.mp h2
    have h4 := h3.2
    simp only [Bool.and_eq_true, beq_iff_eq] at h4
    exact ⟨h3.1, h4.1, h4.2⟩
  refine ⟨fun c hc => (hmem c hc).2, List.length_take_le 200 _, ?_, ?_, ?_,
    fun c => ⟨serialize_public_no_email c, (serialize_no_secret_keys false c).1⟩⟩
  · exact (List.sorted_insertionSort newestFirst _).sublist (List.take_sublist 200 _)
  · intro hlen c
    constructor
    · exact hmem c
    · rintro ⟨hcdb, hkey, hst⟩
      have hp : c ∈ db.filter (fun c => c.normalizedKey == strTrim slugRaw
          && c.status == CommentStatus.visible) :=
        List.mem_filter.mpr ⟨hcdb, by simp [hkey, hst]⟩
      have hin : c ∈ List.insertionSort newestFirst
          (db.filter (fun c => c.normalizedKey == strTrim slugRaw
            && c.status == CommentStatus.visible)) :=
        (List.mem_insertionSort newestFirst).mpr hp
      have hle : (List.insertionSort newestFirst
          (db.filter (fun c => c.normalizedKey == strTrim slugRaw
            && c.status == CommentStatus.visible))).length ≤ 200 := by
        rw [List.length_insertionSort]
        exact hlen
      unfold publicQuery
      rw [List.take_of_length_le hle]
      exact hin
  · simp [listPublic, hs]

/-- Concrete visible comment for the public-listing witness. -/
def witVisibleComment : CommentRec :=
  { witComment with id := 3, status := CommentStatus.visible }

/-- Witness for C4: the visible comment is listed on its slug. -/
theorem listPublic_spec_witness :
    witVisibleComment ∈ publicQuery [witVisibleComment] (strTrim "acme-widget-9000")
    ∧ listPublic [witVisibleComment] "acme-widget-9000" =
        PublicListResp.ok
          ((publicQuery [witVisibleComment] (strTrim "acme-widget-9000")).map
            (serializeCommentFields false)) :=
  ⟨((listPublic_spec [witVisibleComment] "acme-widget-9000" (by decide)).2.2.2.1
      (by decide) witVisibleComment).mpr
    ⟨List.mem_singleton.mpr rfl, by decide, rfl⟩,
   (listPublic_spec [witVisibleComment] "acme-widget-9000" (by decide)).2.2.2.2.1⟩

/-- Every allowed status comes from the mode's base set. -/
theorem allowedStatuses_subset_modeBase (mode statusParam : Option String) :
    ∀ s ∈ allowedStatuses mode statusParam, s ∈ modeBase mode := by
  intro s hsmem
  cases statusParam with
  | none => simpa [allowedStatuses] using hsmem
  | some raw =>
    simp only [allowedStatuses] at hsmem
    by_cases hr : (raw == "") = true
    · rw [if_pos hr] at hsmem
      exact hsmem
    · rw [if_neg hr] at hsmem
      by_cases ha : (parseStatusList raw).length > 0
      · rw [if_pos ha] at hsmem
        have h2 := List.mem_filter.mp hsmem
        simpa using h2.2
      · rw [if_neg ha] at hsmem
        exact hsmem

/-- C9 (amended): `ListPublicSafe(mode, statusFilter, limit)` returns only
feedback whose status is in the mode's allowed set (`recent`, i.e.
anything but `"all"`, = {new, triaged}; `"all"` = all three) intersected
with a caller-supplied valid status filter, newest first, at most 200
items — all matching items when at most `lim` match — and each serialized
item exposes only `_id` (retained by the Mongo inclusion projection by
default) plus `category`, `message`, `pageUrl`, `status`, `createdAt`;
in particular never `email` or `userAgent`. -/
theorem feedbackPublic_spec (db : List FeedbackRec)
    (mode statusParam : Option String) (limitParam : Option Nat) :
    (∀ f ∈ feedbackPublicQuery db mode statusParam limitParam,
        f.status ∈ allowedStatuses mode statusParam)
    ∧ (feedbackPublicQuery db mode statusParam limitParam).length ≤ 200
    ∧ (feedbackPublicQuery db mode statusParam limitParam).Pairwise
        (fun a b => b.createdAt ≤ a.createdAt)
    ∧ modeBase (some "all") = [FbStatus.new, FbStatus.triaged, FbStatus.closed]
    ∧ (mode ≠ some "all" → modeBase mode = [FbStatus.new, FbStatus.triaged])
    ∧ (∀ s ∈ allowedStatuses mode statusParam, s ∈ modeBase mode)
    ∧ (∀ raw, statusParam = some raw → raw ≠ "" → parseStatusList raw ≠ [] →
        ∀ s, s ∈ allowedStatuses mode statusParam ↔
          s ∈ parseStatusList raw ∧ s ∈ modeBase mode)
    ∧ ((db.filter
          (fun f => (allowedStatuses mode statusParam).contains f.status)).length ≤
          feedbackPublicLimit mode limitParam →
        ∀ f, f ∈ feedbackPublicQuery db mode statusParam limitParam ↔
          f ∈ db ∧ f.status ∈ allowedStatuses mode statusParam)
    ∧ (∀ f k, k ∈ (serializeFeedbackPublic f).map Prod.fst →
        k ∈ ["_id", "category", "message", "pageUrl", "status", "createdAt"])
    ∧ (∀ f, "_id" ∈ (serializeFeedbackPublic f).map Prod.fst)
    ∧ (∀ f, "email" ∉ (serializeFeedbackPublic f).map Prod.fst
        ∧ "userAgent" ∉ (serializeFeedbackPublic f).map Prod.fst)
    ∧ feedbackPublicRoute db mode statusParam limitParam =
        (feedbackPublicQuery db mode statusParam limitParam).map
          serializeFeedbackPublic := by
  have hmem : ∀ f ∈ feedbackPublicQuery db mode statusParam limitParam,
      f ∈ db ∧ f.status ∈ allowedStatuses mode statusParam := by
    intro f hf
    have h1 := List.mem_of_mem_take hf
    have h2 := (List.mem_insertionSort fbNewestFirst).mp h1
    have h3 := List.mem_filter.mp h2
    refine ⟨h3.1, ?_⟩
    simpa using h3.2
  refine ⟨fun f hf => (hmem f hf).2, ?_, ?_, rfl, ?_,
    allowedStatuses_subset_modeBase mode statusParam, ?_, ?_, ?_, ?_, ?_, rfl⟩
  · exact Nat.le_trans (List.length_take_le _ _) (Nat.min_le_right _ 200)
  · exact (List.sorted_insertionSort fbNewestFirst _).sublist (List.take_sublist _ _)
  · intro hm
    simp [modeBase, hm]
  · rintro raw rfl hraw hlist s
    have hr : (raw == "") = false := by simpa using hraw
    have hlen : (parseStatusList raw).length > 0 :=
      List.length_pos.mpr hlist
    simp only [allowedStatuses, hr, Bool.false_eq_true, if_false, if_pos hlen]
    constructor
    · intro h
      have h2 := List.mem_filter.mp h
      exact ⟨h2.1, by simpa using h2.2⟩
    · intro h
      exact List.mem_filter.mpr ⟨h.1, by simpa using h.2⟩
  · intro hlen f
    constructor
    · exact hmem f
    · rintro ⟨hfdb, hfs⟩
      have hp : f ∈ db.filter
          (fun f => (allowedStatuses mode statusParam).contains f.status) :=
        List.mem_filter.mpr ⟨hfdb, by simpa using hfs⟩
      have hin := (List.mem_insertionSort fbNewestFirst).mpr hp
      have hle : (List.insertionSort fbNewestFirst
          (db.filter
            (fun f => (allowedStatuses mode statusParam).contains f.status))).length ≤
          feedbackPublicLimit mode limitParam := by
        rw [List.length_insertionSort]
        exact hlen
      unfold feedbackPublicQuery
      rw [List.take_of_length_le hle]
      exact hin
  · intro f k hk
    rcases f with ⟨fi, fc, fm, fe, fp, fu, fs, fca, fua⟩
    cases fp with
    | none =>
      simp only [serializeFeedbackPublic, optField, List.map_append, List.mem_append,
        List.map_cons, List.map_nil, List.mem_cons, List.not_mem_nil, or_false,
        List.mem_singleton] at hk
      simp only [List.mem_cons, List.not_mem_nil, or_false]
      tauto
    | some u =>
      simp only [serializeFeedbackPublic, optField, List.map_append, List.mem_append,
        List.map_cons, List.map_nil, List.mem_cons, List.not_mem_nil, or_false,
        List.mem_singleton] at hk
      simp only [List.mem_cons, List.not_mem_nil, or_false]
      tauto
  · intro f
    rcases f with ⟨fi, fc, fm, fe, fp, fu, fs, fca, fua⟩
    cases fp <;> simp [serializeFeedbackPublic, optField]
  · intro f
    rcases f with ⟨fi, fc, fm, fe, fp, fu, fs, fca, fua⟩
    refine ⟨?_, ?_⟩ <;> cases fp <;> simp [serializeFeedbackPublic, optField]

/-- Concrete feedback record for the public-listing witness. -/
def witFeedback : FeedbackRec :=
  { id := 5
    category := FbCategory.bug
    message := "The page is broken"
    status := FbStatus.new
    createdAt := 50
    updatedAt := 50 }

/-- Witness for C9's amended theorem: the fresh feedback record is listed
in default mode. -/
theorem feedbackPublic_spec_witness :
    witFeedback ∈ feedbackPublicQuery [witFeedback] none none none :=
  ((feedbackPublic_spec [witFeedback] none none none).2.2.2.2.2.2.2.1 (by decide)
    witFeedback).mpr ⟨List.mem_singleton.mpr rfl, by decide⟩

/-- C9 counterexample: a returned public feedback item exposes `_id` —
kept by the Mongo inclusion projection unless explicitly excluded — in
addition to the five selected fields, so "exposes only the fields
category, message, pageUrl, status, createdAt" fails. -/
theorem feedbackPublic_exposes_id :
    feedbackPublicRoute [witFeedback] none none none =
      [serializeFeedbackPublic witFeedback]
    ∧ "_id" ∈ (serializeFeedbackPublic witFeedback).map Prod.fst
    ∧ "_id" ∉ ["category", "message", "pageUrl", "status", "createdAt"] := by
  decide

end AluComments
